import Mathlib

/-!
# Verification of the birdclef motif workflow

A shallow embedding of `src/birdclef/workflows/motif.py` together with
proofs about it.

The embedding models the per-recording `write` operation, the motif
locator (`simple_fast`, imported by the source from the external
`simple` module and therefore modelled here from the specification), the
`np.argmin` reduction, and the `extract` / `consolidate` commands.

Conventions of the embedding:
* JSON values are the inductive `JVal`; a Python dict is an ordered
  association list `Dict` so that key order and key sets are observable.
* The filesystem state relevant to one `write` call is the record `FS`.
* Rational numbers stand in for Python floats; `duration` is
  `n_samples / sample_rate`, exactly as `librosa.get_duration` computes it.
* The chroma matrix `cens` is stored as its list of columns, so
  `cens.length` is the frame count `cens.shape[1]` of the source.
-/

namespace BirdclefMotif

/-! ## JSON values and ordered dictionaries -/

/-- A JSON value as written by `json.dumps` in the source: null, an
integer, a (rational-valued) number, or a string. -/
inductive JVal : Type where
  | jnull : JVal
  | jint : ℤ → JVal
  | jnum : ℚ → JVal
  | jstr : String → JVal
  deriving DecidableEq

/-- A Python dict, embedded as an ordered association list of string keys
and JSON values.  Insertion order is the list order, matching the key
order of `json.dumps`. -/
abbrev Dict := List (String × JVal)

/-- The keys of a dict in order. -/
def keys (d : Dict) : List String := d.map Prod.fst

/-- Python dict update for a single key: if the key is present its value
is replaced in place, otherwise the pair is appended at the end. -/
def dictInsert (d : Dict) (k : String) (v : JVal) : Dict :=
  if d.any (fun kv => kv.1 == k) then
    d.map (fun kv => if kv.1 == k then (k, v) else kv)
  else d ++ [(k, v)]

/-- Python dict merge `\x7b**d, **e\x7d`: the updates of `e` are applied to
`d` left to right. -/
def dictMerge (d e : Dict) : Dict :=
  e.foldl (fun acc kv => dictInsert acc kv.1 kv.2) d

/-! ## Rounding

`round(x, 2)` in Python rounds half to even.  `roundHalfEven` is that
rounding on rationals; `round2` applies it at two decimal places. -/

/-- Round a rational to the nearest integer, ties to the even integer
(Python `round` on an exact value). -/
def roundHalfEven (q : ℚ) : ℤ :=
  if q - (⌊q⌋ : ℚ) < 1 / 2 then ⌊q⌋
  else if 1 / 2 < q - (⌊q⌋ : ℚ) then ⌊q⌋ + 1
  else if ⌊q⌋ % 2 = 0 then ⌊q⌋ else ⌊q⌋ + 1

/-- `round(q, 2)` of the source: round to two decimal places. -/
def round2 (q : ℚ) : ℚ := (roundHalfEven (q * 100) : ℚ) / 100

/-! ## The argmin reduction

`np.argmin` returns the index of the smallest element, taking the first
index in ascending order when several elements attain the minimum. -/

/-- Index of the first minimal element of a list, `np.argmin`; `0` on the
empty list. -/
def argmin : List ℚ → ℕ
  | [] => 0
  | [_] => 0
  | x :: y :: rest =>
    if x ≤ (y :: rest).getD (argmin (y :: rest)) 0 then 0
    else argmin (y :: rest) + 1

/-! ## Recordings and directory naming -/

/-- The data of one input recording as the `write` operation sees it:
the file name of `input_path`, the joined last three path parts used as
`source_name`, the native sample rate and sample count reported by
`librosa.load`, and the chroma-energy matrix produced by
`librosa.feature.chroma_cens`, stored as its list of columns. -/
structure Recording : Type where
  fileName : List Char
  sourceName : String
  sampleRate : ℕ
  nSamples : ℕ
  cens : List (List ℚ)
  deriving DecidableEq

/-- `librosa.get_duration(y=data, sr=sample_rate)`: the number of samples
divided by the sample rate, in seconds. -/
def duration (r : Recording) : ℚ := mkRat (r.nSamples : ℤ) r.sampleRate

/-- `cens.shape[1]`: the number of time frames of the feature matrix. -/
def frames (r : Recording) : ℕ := r.cens.length

/-- The separator of `input_path.name.split(".ogg")`. -/
def oggSep : List Char := ['.', 'o', 'g', 'g']

/-- `input_path.name.split(".ogg")[0]`: the part of the file name before
the first occurrence of `".ogg"`, the whole name when there is none. -/
def nameBeforeOgg : List Char → List Char
  | [] => []
  | c :: cs =>
    if oggSep.isPrefixOf (c :: cs) then []
    else c :: nameBeforeOgg cs

/-! ## The motif locator

The source calls `simple_fast(cens, cens, mp_window)` from the external
`simple` module, which is not part of `src/`.  The locator is therefore
modelled from the specification (section 4.2): eager window validation,
then the self-join matrix profile over all non-trivially-overlapping
subsequence pairs, with squared Euclidean distance across the full bin
dimension as the similarity distance. -/

/-- The error taxonomy of the specification: `ConfigurationError` for an
invalid output path (the `ValueError` of `write`), `InvalidWindowError`
for a window not compatible with the frame count. -/
inductive Err : Type where
  | ConfigurationError : Err
  | InvalidWindowError : Err
  deriving DecidableEq

/-- Squared Euclidean distance between two feature columns. -/
def sqDist (a b : List ℚ) : ℚ :=
  (List.zipWith (fun x y => (x - y) ^ 2) a b).sum

/-- Distance between the length-`w` subsequences of `cens` starting at
columns `i` and `j`, summed across the full bin dimension. -/
def subseqDist (cens : List (List ℚ)) (w i j : ℕ) : ℚ :=
  ((List.range w).map (fun t => sqDist (cens.getD (i + t) []) (cens.getD (j + t) []))).sum

/-- Modelled from the spec: the start indices `j` admissible as nearest
neighbors of `i` — inside `[0, frames - w]` and outside the trivial-match
exclusion zone `|i - j| < w`. -/
def validNeighbors (n w i : ℕ) : List ℕ :=
  (List.range n).filter (fun j => w ≤ Nat.dist i j)

/-- Modelled from the spec: the self-join matrix profile and profile
index of `cens` for window `w`.  `mp[i]` is the smallest subsequence
distance from `i` to an admissible neighbor and `pi[i]` that neighbor,
both of length `frames - w + 1`. -/
def computeProfile (cens : List (List ℚ)) (w : ℕ) : List ℚ × List ℕ :=
  let n := cens.length - w + 1
  let row := fun i =>
    let js := validNeighbors n w i
    let ds := js.map (subseqDist cens w i)
    (ds.getD (argmin ds) 0, js.getD (argmin ds) 0)
  ((List.range n).map (fun i => (row i).1), (List.range n).map (fun i => (row i).2))

/-- Modelled from the spec: the Motif Locator `simple_fast` of the
external `simple` module.  It validates the window eagerly — failing with
`InvalidWindowError` when `w ≤ 0` or `w ≥ frames`, before any numeric
work — and otherwise returns the matrix profile and profile index. -/
def locate (cens : List (List ℚ)) (w : ℕ) : Except Err (List ℚ × List ℕ) :=
  if w = 0 ∨ cens.length ≤ w then .error .InvalidWindowError
  else .ok (computeProfile cens w)

/-! ## The per-recording write operation -/

/-- The filesystem state one `write` call can observe and modify:
whether `output_path` exists as a non-directory, whether the
per-recording directory exists, and the contents of `metadata.json`,
`mp.npy` and `pi.npy` inside it (`none` when the file does not exist). -/
structure FS : Type where
  outputIsFile : Bool
  dirExists : Bool
  metadataFile : Option Dict
  mpFile : Option (List ℚ)
  piFile : Option (List ℕ)
  deriving DecidableEq

/-- The empty output state: nothing written yet. -/
def freshFS : FS :=
  { outputIsFile := false, dirExists := false
    metadataFile := none, mpFile := none, piFile := none }

/-- The early-exit test of `write`: the per-recording directory exists
and all of `metadata.json`, `mp.npy` and `pi.npy` exist in it. -/
def allOutputsExist (fs : FS) : Bool :=
  fs.dirExists && fs.metadataFile.isSome && fs.mpFile.isSome && fs.piFile.isSome

/-- What one `write` call did: the final filesystem state, the raised
error if any, which files this call wrote, whether the expensive numeric
work (audio load and feature extraction) ran, and whether the motif
locator was invoked. -/
structure WriteOut : Type where
  fs : FS
  err : Option Err
  wroteMetadata : Bool
  wroteMp : Bool
  wrotePi : Bool
  computed : Bool
  locatorInvoked : Bool
  deriving DecidableEq

/-- The metadata dict of `write` as first constructed, with
`motif_0` and `motif_1` both null. -/
def baseMetadata (r : Recording) (cens_sr mp_window : ℕ) : Dict :=
  [("source_name", .jstr r.sourceName),
   ("cens_sample_rate", .jint (cens_sr : ℤ)),
   ("matrix_profile_window", .jint (mp_window : ℤ)),
   ("sample_rate", .jint (r.sampleRate : ℤ)),
   ("duration_cens", .jint (frames r : ℤ)),
   ("duration_samples", .jint (r.nSamples : ℤ)),
   ("duration_seconds", .jnum (round2 (duration r))),
   ("motif_0", .jnull),
   ("motif_1", .jnull)]

/-- The nine keys of `metadata.json`, in the order the source writes
them. -/
def metadataKeys : List String :=
  ["source_name", "cens_sample_rate", "matrix_profile_window", "sample_rate",
   "duration_cens", "duration_samples", "duration_seconds", "motif_0", "motif_1"]

/-- The `write` function of the source, line by line: reject an
`output_path` that exists and is not a directory; return untouched when
all three outputs already exist; otherwise load the audio and features,
build the metadata, create the directory, and either write the null-motif
metadata (duration under 5 seconds) or run the locator, reduce with
`argmin`, and write metadata plus both arrays. -/
def write (r : Recording) (cens_sr mp_window : ℕ) (fs : FS) : WriteOut :=
  if fs.outputIsFile then
    { fs := fs, err := some .ConfigurationError
      wroteMetadata := false, wroteMp := false, wrotePi := false
      computed := false, locatorInvoked := false }
  else if allOutputsExist fs then
    { fs := fs, err := none
      wroteMetadata := false, wroteMp := false, wrotePi := false
      computed := false, locatorInvoked := false }
  else
    let md := baseMetadata r cens_sr mp_window
    let fs1 : FS := { fs with dirExists := true }
    if duration r < 5 then
      { fs := { fs1 with metadataFile := some md }, err := none
        wroteMetadata := true, wroteMp := false, wrotePi := false
        computed := true, locatorInvoked := false }
    else
      match locate r.cens mp_window with
      | .error e =>
        { fs := fs1, err := some e
          wroteMetadata := false, wroteMp := false, wrotePi := false
          computed := true, locatorInvoked := true }
      | .ok (mp, pi) =>
        let k := argmin mp
        let md2 := dictMerge md
          [("motif_0", .jint (k : ℤ)), ("motif_1", .jint (pi.getD k 0 : ℤ))]
        { fs := { fs1 with metadataFile := some md2
                           mpFile := some mp, piFile := some pi }
          err := none
          wroteMetadata := true, wroteMp := true, wrotePi := true
          computed := true, locatorInvoked := true }

/-! ## The extract and consolidate commands -/

/-- The `extract` command body after globbing: raise when no files were
found, otherwise build the per-file argument lists `[path, dst, 10, 50]`
handed to the pool. -/
def extractCmd (files : List String) : Except String (List (String × ℕ × ℕ)) :=
  if files = [] then .error "no files found"
  else .ok (files.map (fun p => (p, 10, 50)))

/-- First-appearance deduplication, the column-ordering rule of
`pd.DataFrame` over a list of dicts. -/
def dedupFirst : List String → List String
  | [] => []
  | x :: xs => x :: (dedupFirst xs).filter (fun y => y != x)

/-- The columns `pd.DataFrame(data)` derives from a list of dicts: the
union of the keys in order of first appearance. -/
def dfColumns (data : List Dict) : List String :=
  dedupFirst (data.flatMap (fun d => keys d))

/-- The rows of `pd.DataFrame(data)`: one row per dict, one cell per
column, `none` standing for the missing-value cell. -/
def dataFrameRows (data : List Dict) : List (List (String × Option JVal)) :=
  let cols := dfColumns data
  data.map (fun d => cols.map (fun c => (c, d.lookup c)))

/-- The `consolidate` command after globbing `metadata.json` files and
reading them: raise when no files were found, otherwise build the
consolidated table. -/
def consolidateCmd (data : List Dict) : Except String (List (List (String × Option JVal))) :=
  if data = [] then .error "no files found"
  else .ok (dataFrameRows data)

/-! ## Concrete fixtures

Small concrete instances of the data model, used to instantiate the
theorems below on closed inputs. -/

/-- A synthetic recording of duration 4.9 seconds (49 samples at rate
10), below the 5-second threshold. -/
def rShort : Recording :=
  { fileName := "XC0001.ogg".toList
    sourceName := "train_audio/species/XC0001.ogg"
    sampleRate := 10, nSamples := 49
    cens := [[1], [2], [3], [4], [5]] }

/-- A synthetic recording of duration 5.1 seconds (51 samples at rate
10), above the threshold, with five feature frames. -/
def rLong : Recording :=
  { fileName := "XC0002.ogg".toList
    sourceName := "train_audio/species/XC0002.ogg"
    sampleRate := 10, nSamples := 51
    cens := [[1], [2], [3], [1], [2]] }

/-- An output path that exists but is a plain file, not a directory. -/
def fileFS : FS :=
  { outputIsFile := true, dirExists := false
    metadataFile := none, mpFile := none, piFile := none }

/-- One concrete, fully populated metadata record. -/
def sampleRecord : Dict :=
  [("source_name", .jstr "train_audio/species/XC0003.ogg"),
   ("cens_sample_rate", .jint 10),
   ("matrix_profile_window", .jint 50),
   ("sample_rate", .jint 22050),
   ("duration_cens", .jint 100),
   ("duration_samples", .jint 220500),
   ("duration_seconds", .jnum 10),
   ("motif_0", .jint 3),
   ("motif_1", .jint 57)]

/-! ## Properties of the argmin reduction -/

/-- The argmin of a nonempty list is a valid index. -/
theorem argmin_lt_length : ∀ (l : List ℚ), l ≠ [] → argmin l < l.length
  | [], h => absurd rfl h
  | [_], _ => by simp [argmin]
  | x :: y :: rest, _ => by
    rw [argmin]
    by_cases h : x ≤ (y :: rest).getD (argmin (y :: rest)) 0
    · rw [if_pos h]
      simp
    · rw [if_neg h]
      have ih := argmin_lt_length (y :: rest) (by simp)
      simp only [List.length_cons] at ih ⊢
      omega

/-- The element at the argmin is a minimum of the list. -/
theorem argmin_le : ∀ (l : List ℚ) (i : ℕ), i < l.length →
    l.getD (argmin l) 0 ≤ l.getD i 0
  | [_], i, h => by
    have : i = 0 := by simpa using Nat.lt_one_iff.mp (by simpa using h)
    simp [argmin, this]
  | x :: y :: rest, i, h => by
    rw [argmin]
    by_cases hx : x ≤ (y :: rest).getD (argmin (y :: rest)) 0
    · rw [if_pos hx]
      match i with
      | 0 => simp
      | j + 1 =>
        have hj : j < (y :: rest).length := by simpa using h
        calc (x :: y :: rest).getD 0 0 = x := List.getD_cons_zero
          _ ≤ (y :: rest).getD (argmin (y :: rest)) 0 := hx
          _ ≤ (y :: rest).getD j 0 := argmin_le (y :: rest) j hj
          _ = (x :: y :: rest).getD (j + 1) 0 := List.getD_cons_succ.symm
    · rw [if_neg hx]
      have hlt := lt_of_not_le hx
      match i with
      | 0 =>
        calc (x :: y :: rest).getD (argmin (y :: rest) + 1) 0
            = (y :: rest).getD (argmin (y :: rest)) 0 := List.getD_cons_succ
          _ ≤ x := le_of_lt hlt
          _ = (x :: y :: rest).getD 0 0 := List.getD_cons_zero.symm
      | j + 1 =>
        have hj : j < (y :: rest).length := by simpa using h
        calc (x :: y :: rest).getD (argmin (y :: rest) + 1) 0
            = (y :: rest).getD (argmin (y :: rest)) 0 := List.getD_cons_succ
          _ ≤ (y :: rest).getD j 0 := argmin_le (y :: rest) j hj
          _ = (x :: y :: rest).getD (j + 1) 0 := List.getD_cons_succ.symm

/-- Every index strictly before the argmin holds a strictly larger value:
the argmin is the first index attaining the minimum. -/
theorem argmin_first : ∀ (l : List ℚ) (j : ℕ), j < argmin l →
    l.getD (argmin l) 0 < l.getD j 0
  | [], j, h => by simp [argmin] at h
  | [_], j, h => by simp [argmin] at h
  | x :: y :: rest, j, h => by
    rw [argmin] at h ⊢
    by_cases hx : x ≤ (y :: rest).getD (argmin (y :: rest)) 0
    · rw [if_pos hx] at h
      exact absurd h (Nat.not_lt_zero j)
    · rw [if_neg hx] at h ⊢
      have hlt := lt_of_not_le hx
      match j with
      | 0 =>
        calc (x :: y :: rest).getD (argmin (y :: rest) + 1) 0
            = (y :: rest).getD (argmin (y :: rest)) 0 := List.getD_cons_succ
          _ < x := hlt
          _ = (x :: y :: rest).getD 0 0 := List.getD_cons_zero.symm
      | j' + 1 =>
        have hj : j' < argmin (y :: rest) := by omega
        calc (x :: y :: rest).getD (argmin (y :: rest) + 1) 0
            = (y :: rest).getD (argmin (y :: rest)) 0 := List.getD_cons_succ
          _ < (y :: rest).getD j' 0 := argmin_first (y :: rest) j' hj
          _ = (x :: y :: rest).getD (j' + 1) 0 := List.getD_cons_succ.symm

/-! ## Properties of the rounding -/

/-- Rounding half to even moves a rational by at most one half. -/
theorem abs_sub_roundHalfEven (q : ℚ) : |q - (roundHalfEven q : ℚ)| ≤ 1 / 2 := by
  have h0 : (⌊q⌋ : ℚ) ≤ q := Int.floor_le q
  have h1 : q < ⌊q⌋ + 1 := Int.lt_floor_add_one q
  rw [roundHalfEven]
  by_cases hlo : q - (⌊q⌋ : ℚ) < 1 / 2
  · rw [if_pos hlo, abs_le]
    constructor <;> linarith
  · rw [if_neg hlo]
    by_cases hhi : 1 / 2 < q - (⌊q⌋ : ℚ)
    · rw [if_pos hhi, abs_le]
      push_cast
      constructor <;> linarith
    · rw [if_neg hhi]
      have heq : q - (⌊q⌋ : ℚ) = 1 / 2 := le_antisymm (not_lt.mp hhi) (not_lt.mp hlo)
      by_cases hev : ⌊q⌋ % 2 = 0
      · rw [if_pos hev, abs_le]
        constructor <;> linarith
      · rw [if_neg hev, abs_le]
        push_cast
        constructor <;> linarith

/-- `round2` lands on a multiple of one hundredth. -/
theorem round2_hundredth (q : ℚ) : ∃ z : ℤ, round2 q = (z : ℚ) / 100 :=
  ⟨roundHalfEven (q * 100), rfl⟩

/-- `round2` moves a rational by at most half of one hundredth. -/
theorem abs_sub_round2 (q : ℚ) : |q - round2 q| ≤ 1 / 200 := by
  have h := abs_sub_roundHalfEven (q * 100)
  rw [round2]
  have heq : q - (roundHalfEven (q * 100) : ℚ) / 100 =
      (q * 100 - (roundHalfEven (q * 100) : ℚ)) / 100 := by ring
  rw [heq, abs_div]
  have h100 : |(100 : ℚ)| = 100 := by norm_num
  rw [h100]
  linarith

/-! ## Properties of the metadata dictionary -/

theorem keys_baseMetadata (r : Recording) (cens_sr mp_window : ℕ) :
    keys (baseMetadata r cens_sr mp_window) = metadataKeys := rfl

/-- The merged metadata of the long branch, written out explicitly: the
base dict with the two motif values replaced in place. -/
theorem dictMerge_motifs (r : Recording) (cens_sr mp_window : ℕ) (a b : ℤ) :
    dictMerge (baseMetadata r cens_sr mp_window)
        [("motif_0", .jint a), ("motif_1", .jint b)] =
      [("source_name", .jstr r.sourceName),
       ("cens_sample_rate", .jint (cens_sr : ℤ)),
       ("matrix_profile_window", .jint (mp_window : ℤ)),
       ("sample_rate", .jint (r.sampleRate : ℤ)),
       ("duration_cens", .jint (frames r : ℤ)),
       ("duration_samples", .jint (r.nSamples : ℤ)),
       ("duration_seconds", .jnum (round2 (duration r))),
       ("motif_0", .jint a),
       ("motif_1", .jint b)] := rfl

/-! ## Unfolding the branches of the write operation -/

/-- An `output_path` that exists and is not a directory is rejected at
once: nothing is read, computed, or written. -/
theorem write_output_not_dir (r : Recording) (cens_sr mp_window : ℕ) (fs : FS)
    (h : fs.outputIsFile = true) :
    write r cens_sr mp_window fs =
      { fs := fs, err := some .ConfigurationError
        wroteMetadata := false, wroteMp := false, wrotePi := false
        computed := false, locatorInvoked := false } := by
  rw [write, if_pos h]

/-- When all three outputs already exist the call returns untouched. -/
theorem write_skip (r : Recording) (cens_sr mp_window : ℕ) (fs : FS)
    (h1 : fs.outputIsFile = false) (h2 : allOutputsExist fs = true) :
    write r cens_sr mp_window fs =
      { fs := fs, err := none
        wroteMetadata := false, wroteMp := false, wrotePi := false
        computed := false, locatorInvoked := false } := by
  rw [write, if_neg (by simp [h1]), if_pos h2]

/-- The short-recording branch: metadata with the null motif pair is
written, no arrays, no locator call. -/
theorem write_short (r : Recording) (cens_sr mp_window : ℕ) (fs : FS)
    (h1 : fs.outputIsFile = false) (h2 : allOutputsExist fs = false)
    (h3 : duration r < 5) :
    write r cens_sr mp_window fs =
      { fs := { fs with dirExists := true
                        metadataFile := some (baseMetadata r cens_sr mp_window) }
        err := none
        wroteMetadata := true, wroteMp := false, wrotePi := false
        computed := true, locatorInvoked := false } := by
  rw [write, if_neg (by simp [h1]), if_neg (by simp [h2]), if_pos h3]

/-- The long-recording branch with a failing locator: the error
propagates and nothing is written. -/
theorem write_locate_error (r : Recording) (cens_sr mp_window : ℕ) (fs : FS)
    (e : Err)
    (h1 : fs.outputIsFile = false) (h2 : allOutputsExist fs = false)
    (h3 : ¬ duration r < 5) (h4 : locate r.cens mp_window = .error e) :
    write r cens_sr mp_window fs =
      { fs := { fs with dirExists := true }, err := some e
        wroteMetadata := false, wroteMp := false, wrotePi := false
        computed := true, locatorInvoked := true } := by
  rw [write, if_neg (by simp [h1]), if_neg (by simp [h2]), if_neg h3, h4]

/-- The long-recording branch with a successful locator: metadata with
the argmin motif pair and both arrays are written. -/
theorem write_long (r : Recording) (cens_sr mp_window : ℕ) (fs : FS)
    (mp : List ℚ) (pi : List ℕ)
    (h1 : fs.outputIsFile = false) (h2 : allOutputsExist fs = false)
    (h3 : ¬ duration r < 5) (h4 : locate r.cens mp_window = .ok (mp, pi)) :
    write r cens_sr mp_window fs =
      { fs := { fs with dirExists := true
                        metadataFile := some (dictMerge
                          (baseMetadata r cens_sr mp_window)
                          [("motif_0", .jint (argmin mp : ℤ)),
                           ("motif_1", .jint (pi.getD (argmin mp) 0 : ℤ))])
                        mpFile := some mp, piFile := some pi }
        err := none
        wroteMetadata := true, wroteMp := true, wrotePi := true
        computed := true, locatorInvoked := true } := by
  rw [write, if_neg (by simp [h1]), if_neg (by simp [h2]), if_neg h3, h4]

/-! ## Properties of the locator -/

/-- An invalid window is rejected before any profile computation. -/
theorem locate_invalid (cens : List (List ℚ)) (w : ℕ)
    (h : w = 0 ∨ cens.length ≤ w) :
    locate cens w = .error .InvalidWindowError := by
  rw [locate, if_pos h]

/-- A valid window yields the computed matrix profile. -/
theorem locate_valid (cens : List (List ℚ)) (w : ℕ)
    (h1 : w ≠ 0) (h2 : w < cens.length) :
    locate cens w = .ok (computeProfile cens w) := by
  rw [locate, if_neg]
  push_neg
  exact ⟨h1, h2⟩

/-- The matrix profile and the profile index both have length
`frames - w + 1`. -/
theorem computeProfile_length (cens : List (List ℚ)) (w : ℕ) :
    (computeProfile cens w).1.length = cens.length - w + 1 ∧
      (computeProfile cens w).2.length = cens.length - w + 1 := by
  constructor <;> simp [computeProfile]

/-! ## Properties of the directory naming -/

/-- A file name with no occurrence of `".ogg"` passes through the
splitting untouched. -/
theorem nameBeforeOgg_of_no_ogg : ∀ (s : List Char), ¬ oggSep <:+: s →
    nameBeforeOgg s = s
  | [], _ => rfl
  | c :: cs, h => by
    have hp : ¬ (oggSep.isPrefixOf (c :: cs) = true) := fun hpre =>
      h (List.IsPrefix.isInfix (List.isPrefixOf_iff_prefix.mp hpre))
    rw [nameBeforeOgg, if_neg hp,
      nameBeforeOgg_of_no_ogg cs (fun hi => h (List.infix_cons hi))]

/-- The separator `".ogg"` cannot begin inside `c :: cs` and finish in an
appended copy of itself, unless it already occurs in `c :: cs`. -/
theorem not_isPrefixOf_boundary (c : Char) (cs : List Char)
    (h : ¬ oggSep <:+: (c :: cs))
    (hp : oggSep.isPrefixOf (c :: (cs ++ oggSep)) = true) : False := by
  match cs with
  | [] =>
    simp only [oggSep, List.cons_append, List.nil_append, List.isPrefixOf,
      Bool.and_true, Bool.and_eq_true] at hp
    exact absurd hp.2.1 (by decide)
  | [d] =>
    simp only [oggSep, List.cons_append, List.nil_append, List.isPrefixOf,
      Bool.and_true, Bool.and_eq_true] at hp
    exact absurd hp.2.2.1 (by decide)
  | [d, e] =>
    simp only [oggSep, List.cons_append, List.nil_append, List.isPrefixOf,
      Bool.and_true, Bool.and_eq_true] at hp
    exact absurd hp.2.2.2 (by decide)
  | d :: e :: f :: cs3 =>
    simp only [oggSep, List.cons_append, List.isPrefixOf,
      Bool.and_true, Bool.and_eq_true] at hp
    obtain ⟨h1, h2, h3, h4⟩ := hp
    have hc : '.' = c := eq_of_beq h1
    have hd : 'o' = d := eq_of_beq h2
    have he : 'g' = e := eq_of_beq h3
    have hf : 'g' = f := eq_of_beq h4
    subst hc; subst hd; subst he; subst hf
    exact h (List.IsPrefix.isInfix ⟨cs3, rfl⟩)

/-- A file name of the form `base ++ ".ogg"` where `base` contains no
`".ogg"` is split exactly at the extension: the directory name is
`base`. -/
theorem nameBeforeOgg_append (s : List Char) (h : ¬ oggSep <:+: s) :
    nameBeforeOgg (s ++ oggSep) = s := by
  induction s with
  | nil => rfl
  | cons c cs ih =>
    rw [List.cons_append, nameBeforeOgg]
    rw [if_neg (fun hp => not_isPrefixOf_boundary c cs h hp)]
    rw [ih (fun hi => h (List.infix_cons hi))]

/-! ## Properties of the consolidated table -/

/-- First-appearance deduplication commutes with filtering. -/
theorem dedupFirst_filter (q : String → Bool) : ∀ (l : List String),
    dedupFirst (l.filter q) = (dedupFirst l).filter q
  | [] => rfl
  | x :: xs => by
    rw [dedupFirst]
    by_cases hq : q x = true
    · rw [List.filter_cons_of_pos hq, dedupFirst, dedupFirst_filter q xs,
        List.filter_cons_of_pos hq, List.filter_filter, List.filter_filter]
      exact congrArg _ (List.filter_congr (fun a _ => Bool.and_comm ..))
    · have hq' : q x = false := by
        cases hqx : q x
        · rfl
        · exact absurd hqx hq
      rw [List.filter_cons_of_neg hq, dedupFirst_filter q xs,
        List.filter_cons_of_neg hq, List.filter_filter]
      refine (List.filter_congr (fun a _ => ?_)).symm
      by_cases hax : a = x
      · subst hax
        simp [hq']
      · simp [bne_iff_ne, hax]

/-- Appending entries that all already occur in a duplicate-free list
does not change its first-appearance deduplication. -/
theorem dedupFirst_append_subset : ∀ (K m : List String), K.Nodup →
    (∀ x ∈ m, x ∈ K) → dedupFirst (K ++ m) = K
  | [], m, _, h => by
    have : m = [] :=
      List.eq_nil_iff_forall_not_mem.mpr (fun x hx => (List.not_mem_nil x) (h x hx))
    simp [this, dedupFirst]
  | a :: K2, m, hnd, h => by
    rw [List.cons_append, dedupFirst, ← dedupFirst_filter, List.filter_append]
    have hK2 : K2.filter (fun y => y != a) = K2 :=
      List.filter_eq_self.mpr (fun x hx =>
        bne_iff_ne.mpr (fun hxa => (List.nodup_cons.mp hnd).1 (hxa ▸ hx)))
    rw [hK2, dedupFirst_append_subset K2 (m.filter (fun y => y != a))
      (List.nodup_cons.mp hnd).2
      (fun x hx => by
        have hxm := List.mem_filter.mp hx
        rcases List.mem_cons.mp (h x hxm.1) with hxa | hxK2
        · exact absurd hxa (bne_iff_ne.mp hxm.2)
        · exact hxK2)]

/-- Over records that all carry the same duplicate-free key list, the
data-frame columns are exactly that key list. -/
theorem dfColumns_uniform (data : List Dict) (K : List String)
    (hne : data ≠ []) (hnd : K.Nodup) (hK : ∀ d ∈ data, keys d = K) :
    dfColumns data = K := by
  match data with
  | [] => exact absurd rfl hne
  | d :: rest =>
    have hd : keys d = K := hK d (List.mem_cons_self ..)
    have hsub : ∀ x ∈ rest.flatMap (fun d2 => keys d2), x ∈ K := by
      intro x hx
      obtain ⟨d2, hd2, hxd2⟩ := List.mem_flatMap.mp hx
      exact (hK d2 (List.mem_cons_of_mem _ hd2)) ▸ hxd2
    rw [dfColumns, List.flatMap_cons, hd]
    exact dedupFirst_append_subset K _ hnd hsub

/-- Reading every key of a duplicate-free record back through `lookup`
reconstructs the record. -/
theorem map_lookup_self : ∀ (d : Dict), (keys d).Nodup →
    (keys d).map (fun c => (c, d.lookup c)) = d.map (fun kv => (kv.1, some kv.2))
  | [], _ => rfl
  | (k, v) :: rest, hnd => by
    have hk : k ∉ keys rest := (List.nodup_cons.mp hnd).1
    have hrest := (List.nodup_cons.mp hnd).2
    show (k, ((k, v) :: rest).lookup k) ::
        (keys rest).map (fun c => (c, ((k, v) :: rest).lookup c)) = _
    have hhead : ((k, v) :: rest).lookup k = some v := by
      rw [List.lookup, beq_self_eq_true]
    have htail : (keys rest).map (fun c => (c, ((k, v) :: rest).lookup c)) =
        (keys rest).map (fun c => (c, rest.lookup c)) := by
      refine List.map_congr_left (fun c hc => ?_)
      have hck : c ≠ k := fun hck => hk (hck ▸ hc)
      rw [List.lookup, beq_eq_false_iff_ne.mpr hck]
    rw [hhead, htail, map_lookup_self rest hrest]
    rfl

/-! ## Lookup facts about the two metadata shapes -/

theorem keys_merged (r : Recording) (cens_sr mp_window : ℕ) (a b : ℤ) :
    keys (dictMerge (baseMetadata r cens_sr mp_window)
      [("motif_0", .jint a), ("motif_1", .jint b)]) = metadataKeys := by
  rw [dictMerge_motifs]
  rfl

theorem lookup_base_motif0 (r : Recording) (cens_sr mp_window : ℕ) :
    (baseMetadata r cens_sr mp_window).lookup "motif_0" = some .jnull := rfl

theorem lookup_base_motif1 (r : Recording) (cens_sr mp_window : ℕ) :
    (baseMetadata r cens_sr mp_window).lookup "motif_1" = some .jnull := rfl

theorem lookup_base_duration (r : Recording) (cens_sr mp_window : ℕ) :
    (baseMetadata r cens_sr mp_window).lookup "duration_seconds" =
      some (.jnum (round2 (duration r))) := rfl

theorem lookup_merged_motif0 (r : Recording) (cens_sr mp_window : ℕ) (a b : ℤ) :
    (dictMerge (baseMetadata r cens_sr mp_window)
      [("motif_0", .jint a), ("motif_1", .jint b)]).lookup "motif_0" =
      some (.jint a) := by
  rw [dictMerge_motifs]
  rfl

theorem lookup_merged_motif1 (r : Recording) (cens_sr mp_window : ℕ) (a b : ℤ) :
    (dictMerge (baseMetadata r cens_sr mp_window)
      [("motif_0", .jint a), ("motif_1", .jint b)]).lookup "motif_1" =
      some (.jint b) := by
  rw [dictMerge_motifs]
  rfl

theorem lookup_merged_duration (r : Recording) (cens_sr mp_window : ℕ) (a b : ℤ) :
    (dictMerge (baseMetadata r cens_sr mp_window)
      [("motif_0", .jint a), ("motif_1", .jint b)]).lookup "duration_seconds" =
      some (.jnum (round2 (duration r))) := by
  rw [dictMerge_motifs]
  rfl

/-- Whenever `write` wrote `metadata.json`, it did so in one of exactly
two shapes: the null-motif base record (short branch) or the base record
merged with the argmin motif pair (long branch). -/
theorem write_wroteMetadata_cases (r : Recording) (cens_sr mp_window : ℕ) (fs : FS)
    (h : (write r cens_sr mp_window fs).wroteMetadata = true) :
    (duration r < 5 ∧
      (write r cens_sr mp_window fs).fs.metadataFile =
        some (baseMetadata r cens_sr mp_window)) ∨
    (¬ duration r < 5 ∧ ∃ mp pi, locate r.cens mp_window = .ok (mp, pi) ∧
      (write r cens_sr mp_window fs).fs.metadataFile =
        some (dictMerge (baseMetadata r cens_sr mp_window)
          [("motif_0", .jint (argmin mp : ℤ)),
           ("motif_1", .jint (pi.getD (argmin mp) 0 : ℤ))])) := by
  cases h1 : fs.outputIsFile
  · cases h2 : allOutputsExist fs
    · by_cases h3 : duration r < 5
      · exact Or.inl ⟨h3, by rw [write_short r cens_sr mp_window fs h1 h2 h3]⟩
      · cases hloc : locate r.cens mp_window with
        | error e =>
          rw [write_locate_error r cens_sr mp_window fs e h1 h2 h3 hloc] at h
          simp at h
        | ok pr =>
          obtain ⟨mp, pi⟩ := pr
          refine Or.inr ⟨h3, mp, pi, rfl, ?_⟩
          rw [write_long r cens_sr mp_window fs mp pi h1 h2 h3 hloc]
    · rw [write_skip r cens_sr mp_window fs h1 h2] at h
      simp at h
  · rw [write_output_not_dir r cens_sr mp_window fs h1] at h
    simp at h

/-! ## The claims -/

/-- C1: for every recording of duration strictly under 5 seconds, `write`
does not invoke the motif locator and produces a metadata record with
`motif_0 = null` and `motif_1 = null` and writes neither `mp.npy` nor
`pi.npy`; for every recording of duration at least 5 seconds with a valid
window, both array files are written and both motif fields are non-null
integers. -/
theorem c1_short_recording_branch (r : Recording) (cens_sr mp_window : ℕ) (fs : FS)
    (h1 : fs.outputIsFile = false) (h2 : allOutputsExist fs = false) :
    (duration r < 5 →
      (write r cens_sr mp_window fs).locatorInvoked = false ∧
      (write r cens_sr mp_window fs).wroteMp = false ∧
      (write r cens_sr mp_window fs).wrotePi = false ∧
      ∃ md, (write r cens_sr mp_window fs).fs.metadataFile = some md ∧
        md.lookup "motif_0" = some .jnull ∧ md.lookup "motif_1" = some .jnull) ∧
    (¬ duration r < 5 → mp_window ≠ 0 → mp_window < frames r →
      (write r cens_sr mp_window fs).wroteMp = true ∧
      (write r cens_sr mp_window fs).wrotePi = true ∧
      ∃ md, (write r cens_sr mp_window fs).fs.metadataFile = some md ∧
        ∃ a b : ℤ, md.lookup "motif_0" = some (.jint a) ∧
          md.lookup "motif_1" = some (.jint b)) := by
  constructor
  · intro h3
    rw [write_short r cens_sr mp_window fs h1 h2 h3]
    exact ⟨rfl, rfl, rfl, baseMetadata r cens_sr mp_window, rfl,
      lookup_base_motif0 .., lookup_base_motif1 ..⟩
  · intro h3 h4 h5
    rcases hprof : computeProfile r.cens mp_window with ⟨mp, pi⟩
    have hloc : locate r.cens mp_window = .ok (mp, pi) := by
      rw [locate_valid r.cens mp_window h4 h5, hprof]
    rw [write_long r cens_sr mp_window fs mp pi h1 h2 h3 hloc]
    exact ⟨rfl, rfl, _, rfl, (argmin mp : ℤ), (pi.getD (argmin mp) 0 : ℤ),
      lookup_merged_motif0 .., lookup_merged_motif1 ..⟩

theorem c1_short_recording_branch_witness :
    freshFS.outputIsFile = false ∧ allOutputsExist freshFS = false ∧
    duration rShort < 5 ∧ ¬ duration rLong < 5 ∧ (2 : ℕ) ≠ 0 ∧ 2 < frames rLong ∧
    (write rShort 10 50 freshFS).locatorInvoked = false ∧
    (write rShort 10 50 freshFS).wroteMp = false ∧
    (write rLong 10 2 freshFS).wroteMp = true ∧
    (write rLong 10 2 freshFS).wrotePi = true ∧
    (∃ md, (write rLong 10 2 freshFS).fs.metadataFile = some md ∧
      ∃ a b : ℤ, md.lookup "motif_0" = some (.jint a) ∧
        md.lookup "motif_1" = some (.jint b)) := by
  refine ⟨by decide, by decide, by decide, by decide, by decide, by decide,
    ?_, ?_, ?_, ?_, ?_⟩
  · exact ((c1_short_recording_branch rShort 10 50 freshFS
      (by decide) (by decide)).1 (by decide)).1
  · exact ((c1_short_recording_branch rShort 10 50 freshFS
      (by decide) (by decide)).1 (by decide)).2.1
  · exact ((c1_short_recording_branch rLong 10 2 freshFS
      (by decide) (by decide)).2 (by decide) (by decide) (by decide)).1
  · exact ((c1_short_recording_branch rLong 10 2 freshFS
      (by decide) (by decide)).2 (by decide) (by decide) (by decide)).2.1
  · exact ((c1_short_recording_branch rLong 10 2 freshFS
      (by decide) (by decide)).2 (by decide) (by decide) (by decide)).2.2

/-- C2: the motif pair written to metadata is `motif_0 = argmin mp` —
the first index attaining the minimum of the matrix profile — and
`motif_1 = pi[motif_0]`. -/
theorem c2_argmin_reduction (r : Recording) (cens_sr mp_window : ℕ) (fs : FS)
    (h1 : fs.outputIsFile = false) (h2 : allOutputsExist fs = false)
    (h3 : ¬ duration r < 5) (h4 : mp_window ≠ 0) (h5 : mp_window < frames r) :
    ∃ mp pi, locate r.cens mp_window = .ok (mp, pi) ∧
      ∃ md, (write r cens_sr mp_window fs).fs.metadataFile = some md ∧
        md.lookup "motif_0" = some (.jint (argmin mp : ℤ)) ∧
        md.lookup "motif_1" = some (.jint (pi.getD (argmin mp) 0 : ℤ)) ∧
        argmin mp < mp.length ∧
        (∀ i, i < mp.length → mp.getD (argmin mp) 0 ≤ mp.getD i 0) ∧
        (∀ j, j < argmin mp → mp.getD (argmin mp) 0 < mp.getD j 0) := by
  rcases hprof : computeProfile r.cens mp_window with ⟨mp, pi⟩
  have hmp : mp.length = r.cens.length - mp_window + 1 := by
    have hlen := (computeProfile_length r.cens mp_window).1
    rw [hprof] at hlen
    exact hlen
  have hne : mp ≠ [] := List.length_pos.mp (by omega)
  have hloc : locate r.cens mp_window = .ok (mp, pi) := by
    rw [locate_valid r.cens mp_window h4 h5, hprof]
  refine ⟨mp, pi, hloc,
    dictMerge (baseMetadata r cens_sr mp_window)
      [("motif_0", .jint (argmin mp : ℤ)),
       ("motif_1", .jint (pi.getD (argmin mp) 0 : ℤ))],
    ?_, lookup_merged_motif0 r cens_sr mp_window _ _,
    lookup_merged_motif1 r cens_sr mp_window _ _,
    argmin_lt_length mp hne, fun i hi => argmin_le mp i hi,
    fun j hj => argmin_first mp j hj⟩
  rw [write_long r cens_sr mp_window fs mp pi h1 h2 h3 hloc]

theorem c2_argmin_reduction_witness :
    freshFS.outputIsFile = false ∧ allOutputsExist freshFS = false ∧
    ¬ duration rLong < 5 ∧ (2 : ℕ) ≠ 0 ∧ 2 < frames rLong ∧
    (∃ mp pi, locate rLong.cens 2 = .ok (mp, pi) ∧
      ∃ md, (write rLong 10 2 freshFS).fs.metadataFile = some md ∧
        md.lookup "motif_0" = some (.jint (argmin mp : ℤ)) ∧
        md.lookup "motif_1" = some (.jint (pi.getD (argmin mp) 0 : ℤ)) ∧
        argmin mp < mp.length ∧
        (∀ i, i < mp.length → mp.getD (argmin mp) 0 ≤ mp.getD i 0) ∧
        (∀ j, j < argmin mp → mp.getD (argmin mp) 0 < mp.getD j 0)) :=
  ⟨by decide, by decide, by decide, by decide, by decide,
    c2_argmin_reduction rLong 10 2 freshFS
      (by decide) (by decide) (by decide) (by decide) (by decide)⟩

/-- C3: the motif locator rejects a window with `w ≥ frames` or `w ≤ 0`
with `InvalidWindowError` before any profile computation, and a `write`
that hits this error performs no partial writes. -/
theorem c3_invalid_window_rejected (r : Recording) (cens_sr mp_window : ℕ) (fs : FS)
    (hw : mp_window = 0 ∨ frames r ≤ mp_window) :
    locate r.cens mp_window = .error .InvalidWindowError ∧
    (fs.outputIsFile = false → allOutputsExist fs = false → ¬ duration r < 5 →
      (write r cens_sr mp_window fs).err = some .InvalidWindowError ∧
      (write r cens_sr mp_window fs).wroteMetadata = false ∧
      (write r cens_sr mp_window fs).wroteMp = false ∧
      (write r cens_sr mp_window fs).wrotePi = false ∧
      (write r cens_sr mp_window fs).fs.metadataFile = fs.metadataFile ∧
      (write r cens_sr mp_window fs).fs.mpFile = fs.mpFile ∧
      (write r cens_sr mp_window fs).fs.piFile = fs.piFile) := by
  have hloc := locate_invalid r.cens mp_window hw
  refine ⟨hloc, fun h1 h2 h3 => ?_⟩
  rw [write_locate_error r cens_sr mp_window fs .InvalidWindowError h1 h2 h3 hloc]
  exact ⟨rfl, rfl, rfl, rfl, rfl, rfl, rfl⟩

theorem c3_invalid_window_rejected_witness :
    ((7 : ℕ) = 0 ∨ frames rLong ≤ 7) ∧
    locate rLong.cens 7 = .error .InvalidWindowError ∧
    freshFS.outputIsFile = false ∧ allOutputsExist freshFS = false ∧
    ¬ duration rLong < 5 ∧
    (write rLong 10 7 freshFS).err = some .InvalidWindowError ∧
    (write rLong 10 7 freshFS).wroteMetadata = false := by
  refine ⟨by decide, ?_, by decide, by decide, by decide, ?_, ?_⟩
  · exact (c3_invalid_window_rejected rLong 10 7 freshFS (by decide)).1
  · exact ((c3_invalid_window_rejected rLong 10 7 freshFS (by decide)).2
      (by decide) (by decide) (by decide)).1
  · exact ((c3_invalid_window_rejected rLong 10 7 freshFS (by decide)).2
      (by decide) (by decide) (by decide)).2.1

/-- C6: an `output_path` that exists and is not a directory makes `write`
fail with the configuration error before any audio loading, feature
extraction, or numeric work, leaving the filesystem untouched. -/
theorem c6_bad_output_path (r : Recording) (cens_sr mp_window : ℕ) (fs : FS)
    (h : fs.outputIsFile = true) :
    (write r cens_sr mp_window fs).err = some .ConfigurationError ∧
    (write r cens_sr mp_window fs).computed = false ∧
    (write r cens_sr mp_window fs).locatorInvoked = false ∧
    (write r cens_sr mp_window fs).wroteMetadata = false ∧
    (write r cens_sr mp_window fs).wroteMp = false ∧
    (write r cens_sr mp_window fs).wrotePi = false ∧
    (write r cens_sr mp_window fs).fs = fs := by
  rw [write_output_not_dir r cens_sr mp_window fs h]
  exact ⟨rfl, rfl, rfl, rfl, rfl, rfl, rfl⟩

theorem c6_bad_output_path_witness :
    fileFS.outputIsFile = true ∧
    (write rShort 10 50 fileFS).err = some .ConfigurationError ∧
    (write rShort 10 50 fileFS).computed = false := by
  refine ⟨by decide, ?_, ?_⟩
  · exact (c6_bad_output_path rShort 10 50 fileFS (by decide)).1
  · exact (c6_bad_output_path rShort 10 50 fileFS (by decide)).2.1

/-- C7: with an empty glob result, both the extract command and the
consolidate command raise the no-files failure instead of completing
silently. -/
theorem c7_empty_glob_fails :
    extractCmd [] = .error "no files found" ∧
    consolidateCmd [] = .error "no files found" := ⟨rfl, rfl⟩

/-- C4 counterexample: after a first run on a recording shorter than 5
seconds its complete output set — `metadata.json` alone — exists on disk,
yet a second run performs the expensive numeric computation again instead
of skipping. -/
theorem c4_counterexample :
    (write rShort 10 50 freshFS).fs.metadataFile.isSome = true ∧
    (write rShort 10 50 freshFS).fs.mpFile = none ∧
    (write rShort 10 50 freshFS).fs.piFile = none ∧
    (write rShort 10 50 (write rShort 10 50 freshFS).fs).computed = true :=
  ⟨by decide, by decide, by decide, by decide⟩

/-- C4 (amended): a second run of `write` on the same input and output
directory produces identical `metadata.json` content; the numeric
recomputation is skipped on the second run exactly when all three of
`metadata.json`, `mp.npy` and `pi.npy` exist, which after a first run
holds for recordings of at least 5 seconds with a valid window, while
recordings shorter than 5 seconds are recomputed on every run. -/
theorem c4_rerun_behaviour (r : Recording) (cens_sr mp_window : ℕ)
    (h4 : mp_window ≠ 0) (h5 : mp_window < frames r) :
    (¬ duration r < 5 →
      allOutputsExist (write r cens_sr mp_window freshFS).fs = true ∧
      (write r cens_sr mp_window (write r cens_sr mp_window freshFS).fs).computed = false ∧
      (write r cens_sr mp_window (write r cens_sr mp_window freshFS).fs).fs.metadataFile =
        (write r cens_sr mp_window freshFS).fs.metadataFile) ∧
    (duration r < 5 →
      allOutputsExist (write r cens_sr mp_window freshFS).fs = false ∧
      (write r cens_sr mp_window (write r cens_sr mp_window freshFS).fs).computed = true ∧
      (write r cens_sr mp_window (write r cens_sr mp_window freshFS).fs).fs.metadataFile =
        (write r cens_sr mp_window freshFS).fs.metadataFile) := by
  constructor
  · intro h3
    rcases hprof : computeProfile r.cens mp_window with ⟨mp, pi⟩
    have hloc : locate r.cens mp_window = .ok (mp, pi) := by
      rw [locate_valid r.cens mp_window h4 h5, hprof]
    have hw1 := write_long r cens_sr mp_window freshFS mp pi rfl rfl h3 hloc
    have h1' : (write r cens_sr mp_window freshFS).fs.outputIsFile = false := by
      rw [hw1]
      rfl
    have h2' : allOutputsExist (write r cens_sr mp_window freshFS).fs = true := by
      rw [hw1]
      rfl
    refine ⟨h2', ?_, ?_⟩
    · rw [write_skip r cens_sr mp_window _ h1' h2']
    · rw [write_skip r cens_sr mp_window _ h1' h2']
  · intro h3
    have hw1 := write_short r cens_sr mp_window freshFS rfl rfl h3
    have h1' : (write r cens_sr mp_window freshFS).fs.outputIsFile = false := by
      rw [hw1]
      rfl
    have h2' : allOutputsExist (write r cens_sr mp_window freshFS).fs = false := by
      rw [hw1]
      rfl
    refine ⟨h2', ?_, ?_⟩
    · rw [write_short r cens_sr mp_window _ h1' h2' h3]
    · rw [write_short r cens_sr mp_window _ h1' h2' h3, hw1]

theorem c4_rerun_behaviour_witness :
    (2 : ℕ) ≠ 0 ∧ 2 < frames rLong ∧ ¬ duration rLong < 5 ∧ duration rShort < 5 ∧
    allOutputsExist (write rLong 10 2 freshFS).fs = true ∧
    (write rLong 10 2 (write rLong 10 2 freshFS).fs).computed = false ∧
    (write rShort 10 2 (write rShort 10 2 freshFS).fs).computed = true ∧
    (write rShort 10 2 (write rShort 10 2 freshFS).fs).fs.metadataFile =
      (write rShort 10 2 freshFS).fs.metadataFile := by
  refine ⟨by decide, by decide, by decide, by decide, ?_, ?_, ?_, ?_⟩
  · exact ((c4_rerun_behaviour rLong 10 2 (by decide) (by decide)).1 (by decide)).1
  · exact ((c4_rerun_behaviour rLong 10 2 (by decide) (by decide)).1 (by decide)).2.1
  · exact ((c4_rerun_behaviour rShort 10 2 (by decide) (by decide)).2 (by decide)).2.1
  · exact ((c4_rerun_behaviour rShort 10 2 (by decide) (by decide)).2 (by decide)).2.2

/-- C5: every `metadata.json` written by `write` is a JSON object with
exactly the nine specified keys, in which `duration_seconds` is the
audio duration rounded to two decimal places and each motif field is an
integer or null. -/
theorem c5_metadata_schema (r : Recording) (cens_sr mp_window : ℕ) (fs : FS)
    (h : (write r cens_sr mp_window fs).wroteMetadata = true) :
    ∃ md, (write r cens_sr mp_window fs).fs.metadataFile = some md ∧
      keys md = metadataKeys ∧
      md.lookup "duration_seconds" = some (.jnum (round2 (duration r))) ∧
      (∃ z : ℤ, round2 (duration r) = (z : ℚ) / 100) ∧
      |duration r - round2 (duration r)| ≤ 1 / 200 ∧
      (md.lookup "motif_0" = some .jnull ∨
        ∃ a : ℤ, md.lookup "motif_0" = some (.jint a)) ∧
      (md.lookup "motif_1" = some .jnull ∨
        ∃ b : ℤ, md.lookup "motif_1" = some (.jint b)) := by
  rcases write_wroteMetadata_cases r cens_sr mp_window fs h with
    ⟨h3, hmd⟩ | ⟨h3, mp, pi, hloc, hmd⟩
  · exact ⟨baseMetadata r cens_sr mp_window, hmd,
      keys_baseMetadata r cens_sr mp_window,
      lookup_base_duration r cens_sr mp_window,
      round2_hundredth _, abs_sub_round2 _,
      Or.inl (lookup_base_motif0 r cens_sr mp_window),
      Or.inl (lookup_base_motif1 r cens_sr mp_window)⟩
  · exact ⟨_, hmd, keys_merged r cens_sr mp_window _ _,
      lookup_merged_duration r cens_sr mp_window _ _,
      round2_hundredth _, abs_sub_round2 _,
      Or.inr ⟨_, lookup_merged_motif0 r cens_sr mp_window _ _⟩,
      Or.inr ⟨_, lookup_merged_motif1 r cens_sr mp_window _ _⟩⟩

theorem c5_metadata_schema_witness :
    (write rShort 10 50 freshFS).wroteMetadata = true ∧
    (∃ md, (write rShort 10 50 freshFS).fs.metadataFile = some md ∧
      keys md = metadataKeys ∧
      md.lookup "duration_seconds" = some (.jnum (round2 (duration rShort))) ∧
      (∃ z : ℤ, round2 (duration rShort) = (z : ℚ) / 100) ∧
      |duration rShort - round2 (duration rShort)| ≤ 1 / 200 ∧
      (md.lookup "motif_0" = some .jnull ∨
        ∃ a : ℤ, md.lookup "motif_0" = some (.jint a)) ∧
      (md.lookup "motif_1" = some .jnull ∨
        ∃ b : ℤ, md.lookup "motif_1" = some (.jint b))) :=
  ⟨by decide, c5_metadata_schema rShort 10 50 freshFS (by decide)⟩

/-- C8 counterexample: a file name not ending in `".ogg"` keeps its
extension — `"foo.wav"` maps to the directory name `"foo.wav"`, not to
`"foo"` with the audio extension stripped. -/
theorem c8_counterexample :
    nameBeforeOgg ("foo.wav".toList) = "foo.wav".toList ∧
    "foo.wav".toList ≠ "foo".toList :=
  ⟨by decide, by decide⟩

/-- C8 (amended): the per-recording output directory is named by
truncating the file name at its first occurrence of `".ogg"`: a name of
the form `base ++ ".ogg"` with no `".ogg"` inside `base` maps to `base`,
and a name containing no `".ogg"` at all is used unchanged — no other
audio extension is stripped. -/
theorem c8_directory_naming (s : List Char) (h : ¬ oggSep <:+: s) :
    nameBeforeOgg s = s ∧ nameBeforeOgg (s ++ oggSep) = s :=
  ⟨nameBeforeOgg_of_no_ogg s h, nameBeforeOgg_append s h⟩

theorem c8_directory_naming_witness :
    ¬ oggSep <:+: "XC123456".toList ∧
    (nameBeforeOgg ("XC123456".toList) = "XC123456".toList ∧
      nameBeforeOgg ("XC123456".toList ++ oggSep) = "XC123456".toList) :=
  ⟨by decide, c8_directory_naming ("XC123456".toList) (by decide)⟩

theorem metadataKeys_nodup : metadataKeys.Nodup := by decide

theorem dataFrameRows_getElem (data : List Dict) (i : ℕ)
    (hi2 : i < (dataFrameRows data).length) :
    (dataFrameRows data)[i] =
      (dfColumns data).map (fun c => (c, ((data.getD i []).lookup c))) := by
  have hi : i < data.length := by simpa [dataFrameRows] using hi2
  have hgd : data.getD i [] = data[i] := List.getD_eq_getElem data [] hi
  rw [hgd]
  simp [dataFrameRows]

/-- C9: consolidation over per-recording metadata records yields a table
with one row per record, and each row reconstructs exactly the fields of
its source record. -/
theorem c9_consolidated_table (data : List Dict)
    (hne : data ≠ []) (hK : ∀ d ∈ data, keys d = metadataKeys) :
    ∃ t, consolidateCmd data = .ok t ∧ t.length = data.length ∧
      ∀ i, i < data.length →
        t.getD i [] = (data.getD i []).map (fun kv => (kv.1, some kv.2)) := by
  have hcols : dfColumns data = metadataKeys :=
    dfColumns_uniform data metadataKeys hne metadataKeys_nodup hK
  refine ⟨dataFrameRows data, ?_, by simp [dataFrameRows], fun i hi => ?_⟩
  · rw [consolidateCmd, if_neg hne]
  · have hi2 : i < (dataFrameRows data).length := by simpa [dataFrameRows] using hi
    rw [List.getD_eq_getElem _ _ hi2, dataFrameRows_getElem data i hi2]
    have hmem : data.getD i [] ∈ data := by
      rw [List.getD_eq_getElem _ _ hi]
      exact List.getElem_mem hi
    have hdi : keys (data.getD i []) = metadataKeys := hK _ hmem
    have hnd : (keys (data.getD i [])).Nodup := by
      rw [hdi]
      exact metadataKeys_nodup
    rw [hcols, ← hdi]
    exact map_lookup_self (data.getD i []) hnd

theorem c9_consolidated_table_witness :
    ([sampleRecord] : List Dict) ≠ [] ∧
    (∀ d ∈ [sampleRecord], keys d = metadataKeys) ∧
    (∃ t, consolidateCmd [sampleRecord] = .ok t ∧ t.length = [sampleRecord].length ∧
      ∀ i, i < [sampleRecord].length →
        t.getD i [] = (([sampleRecord].getD i []).map (fun kv => (kv.1, some kv.2)))) :=
  ⟨by decide, by decide, c9_consolidated_table [sampleRecord] (by decide) (by decide)⟩

/-- C10: in every metadata record `write` produces, the two motif fields
are either both null or both integers — never exactly one null. -/
theorem c10_motif_fields_paired (r : Recording) (cens_sr mp_window : ℕ) (fs : FS)
    (h : (write r cens_sr mp_window fs).wroteMetadata = true) :
    ∃ md, (write r cens_sr mp_window fs).fs.metadataFile = some md ∧
      ((md.lookup "motif_0" = some .jnull ∧ md.lookup "motif_1" = some .jnull) ∨
        ∃ a b : ℤ, md.lookup "motif_0" = some (.jint a) ∧
          md.lookup "motif_1" = some (.jint b)) := by
  rcases write_wroteMetadata_cases r cens_sr mp_window fs h with
    ⟨h3, hmd⟩ | ⟨h3, mp, pi, hloc, hmd⟩
  · exact ⟨_, hmd, Or.inl ⟨lookup_base_motif0 r cens_sr mp_window,
      lookup_base_motif1 r cens_sr mp_window⟩⟩
  · exact ⟨_, hmd, Or.inr ⟨_, _, lookup_merged_motif0 r cens_sr mp_window _ _,
      lookup_merged_motif1 r cens_sr mp_window _ _⟩⟩

theorem c10_motif_fields_paired_witness :
    (write rLong 10 2 freshFS).wroteMetadata = true ∧
    (∃ md, (write rLong 10 2 freshFS).fs.metadataFile = some md ∧
      ((md.lookup "motif_0" = some .jnull ∧ md.lookup "motif_1" = some .jnull) ∨
        ∃ a b : ℤ, md.lookup "motif_0" = some (.jint a) ∧
          md.lookup "motif_1" = some (.jint b))) :=
  ⟨by decide, c10_motif_fields_paired rLong 10 2 freshFS (by decide)⟩

end BirdclefMotif
